import Mathlib

/-!
Verification of the per-client request admission-control subsystem
(rate limiting middleware) of the multi-blog repository, against its
natural-language specification.

The embedding follows `apps/api/src/middleware/rate_limit.rs` (the
current DashMap-based implementation); the older coarse-lock version in
`api/src/middleware/rate_limit.rs` is referenced where a claim cites it.
The token-bucket decision procedure itself (`RateLimiter::check` of the
external `governor` crate) is not part of the repository's sources, so it
is modelled from the specification's description of the token-bucket
algorithm (continuous refill, capacity `max_requests`, refill rate
`max_requests` tokens per `window_seconds`), as noted on its definition.

Time is modelled by rational numbers (seconds); `Instant::elapsed` is
`now - t` under the monotone-clock assumption `t ≤ now`.
-/

namespace RateLimit

/-- Client IP addresses (model of Rust `std::net::IpAddr`): an IPv4
address is four octets, an IPv6 address is its segment list.  Equality is
structural, with no normalisation, matching the source's use of `IpAddr`
as a map key. -/
inductive IpAddr where
  | v4 (a b c d : Nat)
  | v6 (segs : List Nat)
deriving DecidableEq, Repr

/-- Model of Rust `axum::http::StatusCode` values used by the middleware:
just the numeric code. -/
abbrev StatusCode := Nat

/-- `StatusCode::INTERNAL_SERVER_ERROR`. -/
def INTERNAL_SERVER_ERROR : StatusCode := 500

/-- `StatusCode::TOO_MANY_REQUESTS`. -/
def TOO_MANY_REQUESTS : StatusCode := 429

/-- The request metadata consulted by the `ClientIp` extractor
(`from_request_parts`): the `X-Forwarded-For` header value, the
`X-Real-IP` header value, and the IP of the `ConnectInfo<SocketAddr>`
extension (the transport peer address).  A header whose value is not
valid visible-ASCII (`to_str()` failing) behaves in the source exactly
like an absent header (the `and_then` chain yields `None`), so both are
modelled as `none`. -/
structure Parts where
  xForwardedFor : Option String
  xRealIp : Option String
  connectInfo : Option IpAddr

/-- Rust `s.split(',').next()`: the text before the first comma (the
whole string when no comma occurs).  `split` on a `str` always yields at
least one piece, so the Rust `next()` is always `Some`. -/
def firstCommaValue (s : String) : String :=
  ⟨s.data.takeWhile (fun c => c ≠ ',')⟩

/-- Rust `str::trim`: the string with leading and trailing whitespace
removed (header values are ASCII, so ASCII whitespace suffices). -/
def trim (s : String) : String :=
  ⟨((s.data.dropWhile Char.isWhitespace).reverse.dropWhile Char.isWhitespace).reverse⟩

/-- `ClientIp::from_request_parts` from
`apps/api/src/middleware/rate_limit.rs` lines 33-64, parameterised by the
IP-address parser `parse` (Rust `str::parse::<IpAddr>().ok()`, which
lives in `std`, not in the repository):
first the `X-Forwarded-For` header's first comma-separated value
(trimmed), then the `X-Real-IP` header (trimmed), then the connection's
peer address; otherwise an `INTERNAL_SERVER_ERROR` rejection. -/
def from_request_parts (parse : String → Option IpAddr) (p : Parts) :
    Except (StatusCode × String) IpAddr :=
  match p.xForwardedFor.bind (fun s => parse (trim (firstCommaValue s))) with
  | some forwarded_for => .ok forwarded_for
  | none =>
    match p.xRealIp.bind (fun s => parse (trim s)) with
    | some real_ip => .ok real_ip
    | none =>
      match p.connectInfo with
      | some addr => .ok addr
      | none => .error (INTERNAL_SERVER_ERROR, "Could not extract client IP address")

end RateLimit

namespace RateLimit

/-- `RateLimitConfig`: maximum requests per window and the window length
in seconds.  `max_requests` is a `NonZeroU32` in the source; the
positivity invariant appears as a hypothesis where a claim needs it. -/
structure RateLimitConfig where
  max_requests : Nat
  window_seconds : Nat
deriving DecidableEq, Repr

/-- `RateLimitConfig::auth()`: 5 requests per minute. -/
def RateLimitConfig.auth : RateLimitConfig := ⟨5, 60⟩

/-- `RateLimitConfig::admin()`: 10 requests per minute. -/
def RateLimitConfig.admin : RateLimitConfig := ⟨10, 60⟩

/-- `RateLimitConfig::read_only()`: 100 requests per minute. -/
def RateLimitConfig.read_only : RateLimitConfig := ⟨100, 60⟩

/-- `RateLimitConfig::default()`: 30 requests per minute. -/
def RateLimitConfig.default : RateLimitConfig := ⟨30, 60⟩

/-- `RateLimitConfig::strict()`: 3 requests per minute. -/
def RateLimitConfig.strict : RateLimitConfig := ⟨3, 60⟩

/-- Modelled from the spec: the state of one per-identity token bucket.
The bucket decision procedure (`RateLimiter::check` of the external
`governor` crate, configured in `get_limiter` by
`Quota::with_period(window_seconds).allow_burst(max_requests)`) is not
code of this repository, so it is modelled from §4.2 of the
specification: the bucket holds a fractional token count that refills
continuously.  `tokens` is the count available at time `lastRefill`
(seconds, rational). -/
structure BucketState where
  tokens : ℚ
  lastRefill : ℚ
deriving DecidableEq, Repr

/-- Modelled from the spec: a freshly created bucket starts at full burst
capacity `max_requests`. -/
def freshBucket (cfg : RateLimitConfig) (now : ℚ) : BucketState :=
  ⟨(cfg.max_requests : ℚ), now⟩

/-- Modelled from the spec: tokens available at time `now` — the stored
count plus continuous refill at `max_requests` tokens per
`window_seconds` seconds since `lastRefill`, capped at `max_requests`. -/
def refillTokens (cfg : RateLimitConfig) (s : BucketState) (now : ℚ) : ℚ :=
  min (cfg.max_requests : ℚ)
    (s.tokens + (now - s.lastRefill) * (cfg.max_requests : ℚ) / (cfg.window_seconds : ℚ))

/-- Modelled from the spec: `check()` at time `now`.  If at least one
token is available it consumes one and returns `true` (admitted);
otherwise it returns `false` (rejected) with the state unchanged — no
token is consumed and nothing is queued. -/
def check (cfg : RateLimitConfig) (s : BucketState) (now : ℚ) : Bool × BucketState :=
  let avail := refillTokens cfg s now
  if 1 ≤ avail then (true, ⟨avail - 1, now⟩) else (false, s)

/-- A sequence of `n` consecutive `check()` calls, all issued at the same
time `now` (no time elapses between calls): the list of decisions and the
final bucket state. -/
def checkSeq (cfg : RateLimitConfig) (s : BucketState) (now : ℚ) :
    Nat → List Bool × BucketState
  | 0 => ([], s)
  | n + 1 =>
    let r := check cfg s now
    let rest := checkSeq cfg r.2 now n
    (r.1 :: rest.1, rest.2)

end RateLimit

namespace RateLimit

/-- `LimiterState` (`apps/api/src/middleware/rate_limit.rs` lines
126-129): a bucket together with its last access time. -/
structure LimiterState where
  limiter : BucketState
  last_accessed : ℚ
deriving DecidableEq, Repr

/-- `LimiterState::new` records the creation instant as the last access. -/
def LimiterState.new (limiter : BucketState) (now : ℚ) : LimiterState :=
  ⟨limiter, now⟩

/-- `LimiterState::touch`: refresh `last_accessed` to the current instant. -/
def LimiterState.touch (s : LimiterState) (now : ℚ) : LimiterState :=
  { s with last_accessed := now }

/-- `LimiterState::is_stale`: `self.last_accessed.elapsed() > timeout`,
with `elapsed = now - last_accessed` under a monotone clock. -/
def LimiterState.is_stale (s : LimiterState) (now timeout : ℚ) : Bool :=
  timeout < now - s.last_accessed

/-- The registry (the `DashMap<IpAddr, LimiterState>`), modelled as an
association list with unique keys; lookups and updates are by key. -/
abbrev Registry := List (IpAddr × LimiterState)

/-- Key lookup in the registry (`DashMap::get`/`get_mut` hit or miss). -/
def Registry.lookup : Registry → IpAddr → Option LimiterState
  | [], _ => none
  | e :: rest, ip => if e.1 = ip then some e.2 else Registry.lookup rest ip

/-- Key insertion (`DashMap::insert`): replaces the entry for `ip` when
present, otherwise appends a new entry. -/
def Registry.insert (m : Registry) (ip : IpAddr) (v : LimiterState) : Registry :=
  match m with
  | [] => [(ip, v)]
  | e :: rest =>
    if e.1 = ip then (ip, v) :: rest else e :: Registry.insert rest ip v

/-- Key-preserving update of the entry for `ip`, when present. -/
def Registry.modify (m : Registry) (ip : IpAddr) (f : LimiterState → LimiterState) :
    Registry :=
  m.map (fun e => if e.1 = ip then (e.1, f e.2) else e)

/-- The stale-entry threshold hard-coded in `start_cleanup_task`
(line 184): `Duration::from_secs(3600)`. -/
def stale_after : ℚ := 3600

/-- The staleness threshold in whole seconds, for comparison against a
configuration's `window_seconds`. -/
def stale_after_seconds : Nat := 3600

/-- One Evictor sweep (`start_cleanup_task`, line 190):
`limiters.retain(|_, state| !state.is_stale(stale_after))` at time `now`
with the given timeout. -/
def sweep (m : Registry) (now timeout : ℚ) : Registry :=
  m.filter (fun e => ! e.2.is_stale now timeout)

/-- `RateLimitMiddleware::get_limiter` (lines 212-225), sequential
semantics (one caller at a time): on a hit, touch `last_accessed` and
return the stored bucket; on a miss, create a fresh bucket at full burst
and insert it.  Returns the bucket handle and the updated registry. -/
def get_limiter (cfg : RateLimitConfig) (m : Registry) (ip : IpAddr) (now : ℚ) :
    BucketState × Registry :=
  match m.lookup ip with
  | some entry => (entry.limiter, m.modify ip (·.touch now))
  | none =>
    let limiter := freshBucket cfg now
    (limiter, m.insert ip (LimiterState.new limiter now))

/-- One `record_http_metrics(method, path, status, duration)` call. -/
structure MetricEvent where
  method : String
  path : String
  status : Nat
  duration : Nat
deriving DecidableEq, Repr

/-- The observable outcome of one `RateLimitMiddleware::apply` call:
the returned `Result<Response, StatusCode>` (the error branch carries
only a status code — no body), whether the downstream `next.run(request)`
was invoked, and the metric events recorded. -/
structure ApplyOutcome (Response : Type) where
  result : Except StatusCode Response
  downstream_invoked : Bool
  metrics : List MetricEvent

/-- `RateLimitMiddleware::apply` (lines 228-262): fetch/create the bucket
for `ip`, run `check()`; on admission run the downstream pipeline and
return its response unchanged; on rejection record the
`("RATE_LIMITED", "/", 429, 0)` metric and return
`Err(StatusCode::TOO_MANY_REQUESTS)` without touching the downstream.
`downstream` is the response the rest of the pipeline would produce.  The
bucket handle is an `Arc` shared with the registry entry, so the
post-`check()` bucket state is written back to the entry. -/
def apply {Response : Type} (cfg : RateLimitConfig) (m : Registry) (ip : IpAddr)
    (now : ℚ) (downstream : Response) : ApplyOutcome Response × Registry :=
  let r1 := get_limiter cfg m ip now
  let r2 := check cfg r1.1 now
  let m2 := (r1.2).modify ip (fun s => { s with limiter := r2.2 })
  (if r2.1 then
    { result := .ok downstream, downstream_invoked := true, metrics := [] }
  else
    { result := .error TOO_MANY_REQUESTS, downstream_invoked := false,
      metrics := [⟨"RATE_LIMITED", "/", 429, 0⟩] }, m2)

/-- The registry after a sequence of requests from identity `ip`, one
`apply` call per listed timestamp. -/
def runRequests (cfg : RateLimitConfig) (m : Registry) (ip : IpAddr) :
    List ℚ → Registry
  | [] => m
  | t :: ts => runRequests cfg (apply cfg m ip t ()).2 ip ts

end RateLimit

namespace RateLimit

/-!
Interleaving model of concurrent `get_limiter` calls.

`get_limiter` in the DashMap version performs two separately-atomic map
operations on a miss: the `get_mut` lookup (line 213) and the `insert`
(line 223); the `RateLimiter` construction in between is purely local.
Each task is therefore a two-step program; an arbitrary scheduler
interleaves the steps.  Buckets are identified by allocation ids (each
`Arc::new(RateLimiter::direct(quota))` is a distinct instance, always
created at full burst); the map stores the id currently registered for
the IP.
-/

/-- Program counter of one task running `get_limiter ip`: not yet
started; holding a locally constructed bucket `bid` it is about to
insert; or finished holding the handle `bid` it will use for `check`. -/
inductive TaskPc where
  | ready
  | toInsert (bid : Nat)
  | finished (bid : Nat)
deriving DecidableEq, Repr

/-- Lookup in the id-level registry map. -/
def raceLookup (m : List (IpAddr × Nat)) (ip : IpAddr) : Option Nat :=
  (m.find? (fun e => e.1 = ip)).map (·.2)

/-- `DashMap::insert` at the id level: replaces any entry for `ip`. -/
def raceInsert (m : List (IpAddr × Nat)) (ip : IpAddr) (bid : Nat) :
    List (IpAddr × Nat) :=
  match m with
  | [] => [(ip, bid)]
  | e :: rest =>
    if e.1 = ip then (ip, bid) :: rest else e :: raceInsert rest ip bid

/-- Global state of two tasks racing through `get_limiter` for the same
IP: the shared map, both program counters, the next fresh allocation id,
and how many buckets have been constructed so far. -/
structure RaceState where
  map : List (IpAddr × Nat)
  pc1 : TaskPc
  pc2 : TaskPc
  nextId : Nat
  constructions : Nat
deriving DecidableEq, Repr

/-- Both tasks at the start, empty registry (a never-before-seen IP). -/
def RaceState.init : RaceState :=
  ⟨[], .ready, .ready, 0, 0⟩

/-- One atomic step of a task's `get_limiter`: from `ready`, the
`get_mut` lookup — a hit finishes with the stored handle, a miss
constructs a fresh bucket (lines 218-221) to be inserted; from
`toInsert`, the `insert` (line 223) publishes the bucket and the task
finishes with its handle.  Returns the new pc, map, next id, and
construction count. -/
def stepPc (ip : IpAddr) (pc : TaskPc) (map : List (IpAddr × Nat))
    (nextId constructions : Nat) :
    TaskPc × List (IpAddr × Nat) × Nat × Nat :=
  match pc with
  | .ready =>
    match raceLookup map ip with
    | some bid => (.finished bid, map, nextId, constructions)
    | none => (.toInsert nextId, map, nextId + 1, constructions + 1)
  | .toInsert bid => (.finished bid, raceInsert map ip bid, nextId, constructions)
  | .finished bid => (.finished bid, map, nextId, constructions)

/-- Advance task 1 (`which = false`) or task 2 (`which = true`). -/
def raceStep (ip : IpAddr) (st : RaceState) (which : Bool) : RaceState :=
  if which then
    let r := stepPc ip st.pc2 st.map st.nextId st.constructions
    ⟨r.2.1, st.pc1, r.1, r.2.2.1, r.2.2.2⟩
  else
    let r := stepPc ip st.pc1 st.map st.nextId st.constructions
    ⟨r.2.1, r.1, st.pc2, r.2.2.1, r.2.2.2⟩

/-- Run a schedule (a list of task choices) from a state. -/
def runRace (ip : IpAddr) (st : RaceState) : List Bool → RaceState
  | [] => st
  | w :: ws => runRace ip (raceStep ip st w) ws

end RateLimit

namespace RateLimit

/-! Basic lemmas about the token-bucket model. -/

/-- When no time has elapsed since the last refill, the available tokens
are the stored tokens, capped at capacity. -/
theorem refillTokens_no_elapse (cfg : RateLimitConfig) (x r : ℚ) :
    refillTokens cfg ⟨x, r⟩ r = min (cfg.max_requests : ℚ) x := by
  simp [refillTokens]

/-- `check` with an empty bucket and no elapsed time rejects and leaves
the state unchanged. -/
theorem check_zero_no_elapse (cfg : RateLimitConfig) (r : ℚ) :
    check cfg ⟨0, r⟩ r = (false, ⟨0, r⟩) := by
  have hmin : min (cfg.max_requests : ℚ) 0 = 0 :=
    min_eq_right (by positivity)
  simp [check, refillTokens_no_elapse, hmin]

/-- A bucket holding a whole number `m ≤ max_requests` of tokens admits
exactly `m` immediately-issued requests and ends empty. -/
theorem checkSeq_drain (cfg : RateLimitConfig) (now : ℚ) :
    ∀ m : ℕ, m ≤ cfg.max_requests →
      checkSeq cfg ⟨(m : ℚ), now⟩ now m = (List.replicate m true, ⟨0, now⟩) := by
  intro m
  induction m with
  | zero => intro _; simp [checkSeq]
  | succ k ih =>
    intro hk
    have hle : (k : ℚ) + 1 ≤ (cfg.max_requests : ℚ) := by exact_mod_cast hk
    have hone : (1 : ℚ) ≤ (k : ℚ) + 1 := by
      have : (0 : ℚ) ≤ (k : ℚ) := Nat.cast_nonneg k
      linarith
    have hstep : check cfg ⟨(k : ℚ) + 1, now⟩ now = (true, ⟨(k : ℚ), now⟩) := by
      simp only [check, refillTokens_no_elapse, min_eq_right hle, if_pos hone]
      norm_num
    have ih' := ih (Nat.le_of_succ_le hk)
    push_cast
    simp only [checkSeq]
    rw [hstep]
    simp [ih', List.replicate_succ]

/-- Splitting a run of immediate `check` calls. -/
theorem checkSeq_add (cfg : RateLimitConfig) (now : ℚ) (a b : ℕ) :
    ∀ s : BucketState,
      checkSeq cfg s now (a + b) =
        ((checkSeq cfg s now a).1 ++ (checkSeq cfg (checkSeq cfg s now a).2 now b).1,
          (checkSeq cfg (checkSeq cfg s now a).2 now b).2) := by
  induction a with
  | zero => intro s; simp [checkSeq]
  | succ k ih =>
    intro s
    have hrw : k + 1 + b = (k + b) + 1 := by omega
    rw [hrw]
    simp only [checkSeq, ih (check cfg s now).2]
    rfl

/-- Claim C1.  Exact burst admission: for a configuration with
`max_requests = N` (`N ≥ 1`), the first `N` `check()` calls against a
freshly created bucket, with no time elapsed between calls, all return
admission (`true`), and the `(N+1)`-th immediate call returns rejection
(`false`). -/
theorem c1_exact_burst_admission (cfg : RateLimitConfig) (now : ℚ)
    (_h : 1 ≤ cfg.max_requests) :
    (checkSeq cfg (freshBucket cfg now) now (cfg.max_requests + 1)).1 =
      List.replicate cfg.max_requests true ++ [false] := by
  have hdrain := checkSeq_drain cfg now cfg.max_requests le_rfl
  have hsplit := checkSeq_add cfg now cfg.max_requests 1 (freshBucket cfg now)
  have hfresh : freshBucket cfg now = ⟨(cfg.max_requests : ℚ), now⟩ := rfl
  rw [hsplit, hfresh, hdrain]
  simp [checkSeq, check_zero_no_elapse]

/-- Witness for C1: the repository's own
`test_rate_limiting_enforcement` configuration (`max_requests = 2`,
`window_seconds = 1`): calls 1 and 2 admit, call 3 rejects. -/
theorem c1_exact_burst_admission_witness :
    (checkSeq ⟨2, 1⟩ (freshBucket ⟨2, 1⟩ 0) 0 3).1 = [true, true, false] :=
  c1_exact_burst_admission ⟨2, 1⟩ 0 (by decide)

/-- Claim C2.  Refill over time: a bucket of capacity `N ≥ 1` and window
`W ≥ 1` seconds that has just been exhausted (the state after the `N`
burst admissions of a fresh bucket at time `t0`), retried after a delay
`d` with `W/N ≤ d < 2*W/N`, admits one further `check()` call, and an
immediately following `check()` call at the same time rejects: exactly
one token has been regenerated, not a full burst. -/
theorem c2_refill_one_token (cfg : RateLimitConfig) (t0 d : ℚ)
    (hN : 1 ≤ cfg.max_requests) (hW : 1 ≤ cfg.window_seconds)
    (hlo : (cfg.window_seconds : ℚ) / (cfg.max_requests : ℚ) ≤ d)
    (hhi : d < 2 * (cfg.window_seconds : ℚ) / (cfg.max_requests : ℚ)) :
    (check cfg (checkSeq cfg (freshBucket cfg t0) t0 cfg.max_requests).2 (t0 + d)).1
        = true ∧
      (check cfg
          (check cfg (checkSeq cfg (freshBucket cfg t0) t0 cfg.max_requests).2
            (t0 + d)).2 (t0 + d)).1 = false := by
  have hNQ : (0 : ℚ) < (cfg.max_requests : ℚ) := by exact_mod_cast hN
  have hWQ : (0 : ℚ) < (cfg.window_seconds : ℚ) := by exact_mod_cast hW
  have hexh : (checkSeq cfg (freshBucket cfg t0) t0 cfg.max_requests).2 =
      ⟨0, t0⟩ := by
    have := checkSeq_drain cfg t0 cfg.max_requests le_rfl
    rw [show freshBucket cfg t0 = ⟨(cfg.max_requests : ℚ), t0⟩ from rfl, this]
  rw [hexh]
  set x : ℚ := d * (cfg.max_requests : ℚ) / (cfg.window_seconds : ℚ) with hx
  have hrefill : refillTokens cfg ⟨0, t0⟩ (t0 + d) =
      min (cfg.max_requests : ℚ) x := by
    simp [refillTokens, hx]
  have hx1 : (1 : ℚ) ≤ x := by
    rw [hx, le_div_iff₀ hWQ]
    calc (1 : ℚ) * (cfg.window_seconds : ℚ) = (cfg.window_seconds : ℚ) := one_mul _
    _ ≤ d * (cfg.max_requests : ℚ) := by
        have := (div_le_iff₀ hNQ).mp hlo
        linarith
  have hx2 : x < 2 := by
    rw [hx, div_lt_iff₀ hWQ]
    have := (lt_div_iff₀ hNQ).mp hhi
    linarith
  have hNx : (1 : ℚ) ≤ min (cfg.max_requests : ℚ) x :=
    le_min (by exact_mod_cast hN) hx1
  have hfirst : check cfg ⟨0, t0⟩ (t0 + d) =
      (true, ⟨min (cfg.max_requests : ℚ) x - 1, t0 + d⟩) := by
    simp only [check, hrefill, if_pos hNx]
  refine ⟨by rw [hfirst], ?_⟩
  rw [hfirst]
  have htok : min (cfg.max_requests : ℚ) x - 1 < 1 := by
    have := min_le_right (cfg.max_requests : ℚ) x
    linarith
  have htokle : min (cfg.max_requests : ℚ) x - 1 ≤ (cfg.max_requests : ℚ) := by
    have := min_le_left (cfg.max_requests : ℚ) x
    linarith
  have hsecond : refillTokens cfg ⟨min (cfg.max_requests : ℚ) x - 1, t0 + d⟩ (t0 + d) =
      min (cfg.max_requests : ℚ) x - 1 := by
    rw [refillTokens_no_elapse]
    exact min_eq_right htokle
  simp only [check, hsecond, if_neg (by linarith : ¬ (1 : ℚ) ≤ min (cfg.max_requests : ℚ) x - 1)]

/-- Witness for C2: `max_requests = 2`, `window_seconds = 1`, exhaustion at
`t0 = 0`, retry after `d = 1/2` seconds (`W/N = 1/2 ≤ d < 1 = 2W/N`):
one admit, then an immediate reject. -/
theorem c2_refill_one_token_witness :
    (check ⟨2, 1⟩ (checkSeq ⟨2, 1⟩ (freshBucket ⟨2, 1⟩ 0) 0 2).2 (0 + 1/2)).1 = true ∧
      (check ⟨2, 1⟩
        (check ⟨2, 1⟩ (checkSeq ⟨2, 1⟩ (freshBucket ⟨2, 1⟩ 0) 0 2).2 (0 + 1/2)).2
        (0 + 1/2)).1 = false :=
  c2_refill_one_token ⟨2, 1⟩ 0 (1/2) (by decide) (by decide)
    (by norm_num) (by norm_num)

/-- Claim C6.  A bucket in the exhausted state (fewer than one token available
at `now`, after refill) rejects: `check()` returns `false`, leaves the
bucket state — token count and last-refill instant — unchanged, and
therefore every later `check()` behaves exactly as if the rejected call
had never happened (a reject never alters when the next token becomes
available). -/
theorem c6_reject_consumes_nothing (cfg : RateLimitConfig) (s : BucketState)
    (now : ℚ) (hexh : refillTokens cfg s now < 1) :
    check cfg s now = (false, s) ∧
      ∀ t : ℚ, check cfg (check cfg s now).2 t = check cfg s t := by
  have hchk : check cfg s now = (false, s) := by
    simp only [check, if_neg (not_le.mpr hexh)]
  exact ⟨hchk, fun t => by rw [hchk]⟩

/-- Witness for C6: the empty bucket `⟨0, 0⟩` under the test configuration,
checked at time `0`: rejected with state unchanged. -/
theorem c6_reject_consumes_nothing_witness :
    check ⟨2, 1⟩ ⟨0, 0⟩ 0 = (false, ⟨0, 0⟩) ∧
      ∀ t : ℚ, check ⟨2, 1⟩ (check ⟨2, 1⟩ ⟨0, 0⟩ 0).2 t = check ⟨2, 1⟩ ⟨0, 0⟩ t :=
  c6_reject_consumes_nothing ⟨2, 1⟩ ⟨0, 0⟩ 0 (by
    rw [refillTokens_no_elapse]
    norm_num)

/-- Claim C4.  Resolver precedence of `ClientIp::from_request_parts`:
a present forwarded-for header whose first comma-separated value (after
trimming) parses as an IP wins; otherwise a real-IP header that parses
(after trimming) is used; otherwise the transport peer address from
`ConnectInfo` is used; and when none of the three yields an IP address,
resolution returns the `INTERNAL_SERVER_ERROR` rejection — no sentinel
identity.  `p.xForwardedFor.bind …  = none` states that the forwarded-for
attempt produced nothing (header absent or first value unparseable), and
similarly for the real-IP attempt. -/
theorem c4_resolver_precedence (parse : String → Option IpAddr) (p : Parts) :
    (∀ s ip, p.xForwardedFor = some s →
      parse (trim (firstCommaValue s)) = some ip →
      from_request_parts parse p = .ok ip) ∧
    (p.xForwardedFor.bind (fun s => parse (trim (firstCommaValue s))) = none →
      ∀ s ip, p.xRealIp = some s → parse (trim s) = some ip →
        from_request_parts parse p = .ok ip) ∧
    (p.xForwardedFor.bind (fun s => parse (trim (firstCommaValue s))) = none →
      p.xRealIp.bind (fun s => parse (trim s)) = none →
      ∀ ip, p.connectInfo = some ip → from_request_parts parse p = .ok ip) ∧
    (p.xForwardedFor.bind (fun s => parse (trim (firstCommaValue s))) = none →
      p.xRealIp.bind (fun s => parse (trim s)) = none →
      p.connectInfo = none →
      from_request_parts parse p =
        .error (INTERNAL_SERVER_ERROR, "Could not extract client IP address")) := by
  refine ⟨?_, ?_, ?_, ?_⟩
  · intro s ip hs hp
    simp [from_request_parts, hs, hp]
  · intro hfwd s ip hs hp
    simp [from_request_parts, hfwd, hs, hp]
  · intro hfwd hreal ip hconn
    simp [from_request_parts, hfwd, hreal, hconn]
  · intro hfwd hreal hconn
    simp [from_request_parts, hfwd, hreal, hconn]

/-- Fixture parser for resolver witnesses: recognises exactly the two
literals `"1.2.3.4"` and `"5.6.7.8"`. -/
def parseFixture : String → Option IpAddr :=
  fun s =>
    if s = "1.2.3.4" then some (.v4 1 2 3 4)
    else if s = "5.6.7.8" then some (.v4 5 6 7 8)
    else none

/-- Witness for C4: all four precedence branches at concrete requests. -/
theorem c4_resolver_precedence_witness :
    from_request_parts parseFixture
        ⟨some "1.2.3.4, 9.9.9.9", some "5.6.7.8", some (.v4 7 7 7 7)⟩ =
      .ok (.v4 1 2 3 4) ∧
    from_request_parts parseFixture
        ⟨some "bogus", some "5.6.7.8", some (.v4 7 7 7 7)⟩ =
      .ok (.v4 5 6 7 8) ∧
    from_request_parts parseFixture ⟨none, none, some (.v4 7 7 7 7)⟩ =
      .ok (.v4 7 7 7 7) ∧
    from_request_parts parseFixture ⟨none, none, none⟩ =
      .error (INTERNAL_SERVER_ERROR, "Could not extract client IP address") :=
  ⟨(c4_resolver_precedence parseFixture
      ⟨some "1.2.3.4, 9.9.9.9", some "5.6.7.8", some (.v4 7 7 7 7)⟩).1
      "1.2.3.4, 9.9.9.9" _ rfl (by decide),
   (c4_resolver_precedence parseFixture
      ⟨some "bogus", some "5.6.7.8", some (.v4 7 7 7 7)⟩).2.1
      (by decide) "5.6.7.8" _ rfl (by decide),
   (c4_resolver_precedence parseFixture ⟨none, none, some (.v4 7 7 7 7)⟩).2.2.1
      rfl rfl _ rfl,
   (c4_resolver_precedence parseFixture ⟨none, none, none⟩).2.2.2 rfl rfl rfl⟩

/-- Claim C10.  When the forwarded-for header is present but its first
comma-separated value does not parse as an IP address, resolution does
not fail: it behaves exactly as if the forwarded-for header were absent,
falling through to the real-IP header, then the transport peer address,
and failing only when those also yield nothing. -/
theorem c10_unparseable_forwarded_falls_through (parse : String → Option IpAddr)
    (p : Parts) (s : String) (hs : p.xForwardedFor = some s)
    (hbad : parse (trim (firstCommaValue s)) = none) :
    from_request_parts parse p =
      from_request_parts parse ⟨none, p.xRealIp, p.connectInfo⟩ := by
  simp [from_request_parts, hs, hbad]

/-- Witness for C10: an unparseable forwarded-for value falls through to
the real-IP header. -/
theorem c10_unparseable_forwarded_falls_through_witness :
    from_request_parts parseFixture ⟨some "bogus", some "5.6.7.8", none⟩ =
      from_request_parts parseFixture ⟨none, some "5.6.7.8", none⟩ :=
  c10_unparseable_forwarded_falls_through parseFixture
    ⟨some "bogus", some "5.6.7.8", none⟩ "bogus" rfl (by decide)

/-- Claim C5.  Eviction correctness: in any registry state at the start
of an Evictor sweep, every entry whose `last_accessed` lies more than the
staleness threshold in the past is removed by that sweep, and every entry
whose `last_accessed` is more recent than the threshold survives it. -/
theorem c5_eviction_sweep (m : Registry) (now : ℚ) (e : IpAddr × LimiterState)
    (hmem : e ∈ m) :
    (stale_after < now - e.2.last_accessed → e ∉ sweep m now stale_after) ∧
      (now - e.2.last_accessed < stale_after → e ∈ sweep m now stale_after) := by
  constructor
  · intro hold hin
    have := (List.mem_filter.mp hin).2
    simp [LimiterState.is_stale, hold] at this
  · intro hrecent
    refine List.mem_filter.mpr ⟨hmem, ?_⟩
    simp [LimiterState.is_stale]
    linarith

/-- Witness for C5: the spec's concrete scenario — entries for `1.1.1.1`
(idle for 4000 s, beyond the 3600 s threshold) and `2.2.2.2` (idle for
1000 s); one sweep removes the first and keeps the second. -/
theorem c5_eviction_sweep_witness :
    ((.v4 1 1 1 1, ⟨⟨10, 0⟩, 0⟩) : IpAddr × LimiterState) ∉
      sweep [(.v4 1 1 1 1, ⟨⟨10, 0⟩, 0⟩), (.v4 2 2 2 2, ⟨⟨10, 0⟩, 3000⟩)]
        4000 stale_after ∧
    ((.v4 2 2 2 2, ⟨⟨10, 0⟩, 3000⟩) : IpAddr × LimiterState) ∈
      sweep [(.v4 1 1 1 1, ⟨⟨10, 0⟩, 0⟩), (.v4 2 2 2 2, ⟨⟨10, 0⟩, 3000⟩)]
        4000 stale_after :=
  ⟨(c5_eviction_sweep _ 4000 _ (by simp)).1 (by norm_num [stale_after]),
   (c5_eviction_sweep _ 4000 _ (by simp)).2 (by norm_num [stale_after])⟩

/-- Counterexample to C9 as stated: the subsystem can be instantiated
with any `RateLimitConfig` (its fields are public, and the repository's
own tests build ad-hoc configurations); for `window_seconds = 3600` —
a legal quota with `window_seconds ≥ 1` — the hard-coded staleness
threshold of 3600 s is not strictly longer than the window. -/
theorem c9_counterexample :
    1 ≤ (⟨1, 3600⟩ : RateLimitConfig).window_seconds ∧
      ¬ ((⟨1, 3600⟩ : RateLimitConfig).window_seconds < stale_after_seconds) := by
  decide

/-- Claim C9, amended.  The Evictor's staleness threshold (3600 s,
hard-coded in `start_cleanup_task`) is strictly longer than
`window_seconds` for every named configuration the repository defines
(all five use a 60 s window), and for an arbitrary configuration exactly
when `window_seconds < 3600`. -/
theorem c9_threshold_exceeds_named_windows :
    RateLimitConfig.auth.window_seconds < stale_after_seconds ∧
    RateLimitConfig.admin.window_seconds < stale_after_seconds ∧
    RateLimitConfig.read_only.window_seconds < stale_after_seconds ∧
    RateLimitConfig.default.window_seconds < stale_after_seconds ∧
    RateLimitConfig.strict.window_seconds < stale_after_seconds ∧
    ∀ cfg : RateLimitConfig,
      (cfg.window_seconds < stale_after_seconds ↔ cfg.window_seconds < 3600) :=
  ⟨by decide, by decide, by decide, by decide, by decide, fun _ => Iff.rfl⟩

/-- Lookup of a key other than the inserted one is unchanged. -/
theorem Registry.lookup_insert_ne (m : Registry) (a b : IpAddr)
    (v : LimiterState) (h : b ≠ a) :
    Registry.lookup (Registry.insert m a v) b = Registry.lookup m b := by
  induction m with
  | nil =>
    simp [Registry.insert, Registry.lookup, Ne.symm h]
  | cons e rest ih =>
    by_cases he : e.1 = a
    · have hne : ¬ e.1 = b := by rw [he]; exact Ne.symm h
      simp only [Registry.insert, if_pos he, Registry.lookup]
      rw [if_neg (Ne.symm h), if_neg hne]
    · simp only [Registry.insert, if_neg he, Registry.lookup]
      by_cases hb : e.1 = b
      · rw [if_pos hb, if_pos hb]
      · rw [if_neg hb, if_neg hb]
        exact ih

/-- Lookup of a key other than the modified one is unchanged. -/
theorem Registry.lookup_modify_ne (m : Registry) (a b : IpAddr)
    (f : LimiterState → LimiterState) (h : b ≠ a) :
    Registry.lookup (Registry.modify m a f) b = Registry.lookup m b := by
  induction m with
  | nil => simp [Registry.modify, Registry.lookup]
  | cons e rest ih =>
    simp only [Registry.modify, List.map_cons] at ih ⊢
    by_cases he : e.1 = a
    · have hne : ¬ e.1 = b := by rw [he]; exact Ne.symm h
      rw [if_pos he]
      simp only [Registry.lookup]
      rw [if_neg hne, if_neg hne]
      exact ih
    · rw [if_neg he]
      simp only [Registry.lookup]
      by_cases hb : e.1 = b
      · rw [if_pos hb, if_pos hb]
      · rw [if_neg hb, if_neg hb]
        exact ih

/-- One `apply` call under identity `A` leaves every other identity's
registry entry untouched. -/
theorem apply_registry_frame (cfg : RateLimitConfig) (m : Registry)
    (A B : IpAddr) (now : ℚ) (h : B ≠ A) :
    Registry.lookup (apply cfg m A now ()).2 B = Registry.lookup m B := by
  simp only [apply]
  cases hA : Registry.lookup m A with
  | none =>
    simp only [get_limiter, hA]
    rw [Registry.lookup_modify_ne _ _ _ _ h, Registry.lookup_insert_ne _ _ _ _ h]
  | some entry =>
    simp only [get_limiter, hA]
    rw [Registry.lookup_modify_ne _ _ _ _ h, Registry.lookup_modify_ne _ _ _ _ h]

/-- Claim C8.  Per-identity independence: for distinct identities `A ≠ B`
in the same registry, any sequence of requests (hence `check()` calls)
performed under identity `A` leaves identity `B`'s registry entry — its
bucket state and its `last_accessed` — exactly unchanged, so `B` retains
its full independent burst capacity no matter how `A`'s quota is spent. -/
theorem c8_per_identity_independence (cfg : RateLimitConfig) (m : Registry)
    (A B : IpAddr) (ts : List ℚ) (h : A ≠ B) :
    Registry.lookup (runRequests cfg m A ts) B = Registry.lookup m B := by
  induction ts generalizing m with
  | nil => rfl
  | cons t rest ih =>
    simp only [runRequests]
    rw [ih, apply_registry_frame cfg m A B t (Ne.symm h)]

/-- Witness for C8: `1.1.1.1` fires three requests (exhausting its
2-request quota) while `2.2.2.2`'s fresh entry stays untouched. -/
theorem c8_per_identity_independence_witness :
    Registry.lookup
        (runRequests ⟨2, 1⟩ [(.v4 2 2 2 2, ⟨⟨2, 0⟩, 0⟩)] (.v4 1 1 1 1) [0, 0, 0])
        (.v4 2 2 2 2) =
      Registry.lookup [(.v4 2 2 2 2, ⟨⟨2, 0⟩, 0⟩)] (.v4 2 2 2 2) :=
  c8_per_identity_independence ⟨2, 1⟩ _ (.v4 1 1 1 1) (.v4 2 2 2 2) [0, 0, 0]
    (by decide)

/-- Claim C7.  The AdmissionGate: when `check()` admits, `apply` invokes
the downstream pipeline and returns its response unchanged, recording no
rate-limited metric; when `check()` rejects, `apply` does not invoke the
downstream and returns `Err(StatusCode::TOO_MANY_REQUESTS)` — the 429
status, carrying no body — additionally recording the
`("RATE_LIMITED", "/", 429, 0)` metric. -/
theorem c7_gate_outcomes {Response : Type} (cfg : RateLimitConfig)
    (m : Registry) (ip : IpAddr) (now : ℚ) (resp : Response) :
    ((check cfg (get_limiter cfg m ip now).1 now).1 = true →
      (apply cfg m ip now resp).1.result = .ok resp ∧
      (apply cfg m ip now resp).1.downstream_invoked = true ∧
      (apply cfg m ip now resp).1.metrics = []) ∧
    ((check cfg (get_limiter cfg m ip now).1 now).1 = false →
      (apply cfg m ip now resp).1.result = .error TOO_MANY_REQUESTS ∧
      TOO_MANY_REQUESTS = 429 ∧
      (apply cfg m ip now resp).1.downstream_invoked = false ∧
      (apply cfg m ip now resp).1.metrics = [⟨"RATE_LIMITED", "/", 429, 0⟩]) := by
  constructor
  · intro hok
    simp [apply, hok]
  · intro hrej
    simp [apply, hrej]
    rfl

/-- Witness for C7: under the test configuration, a first-seen IP is
admitted (fresh bucket, downstream response `"payload"` passed through),
and an IP whose stored bucket is empty is rejected with 429 and the
rate-limited metric. -/
theorem c7_gate_outcomes_witness :
    ((apply ⟨2, 1⟩ [] (.v4 1 1 1 1) 0 "payload").1.result = .ok "payload" ∧
      (apply ⟨2, 1⟩ [] (.v4 1 1 1 1) 0 "payload").1.downstream_invoked = true ∧
      (apply ⟨2, 1⟩ [] (.v4 1 1 1 1) 0 "payload").1.metrics = []) ∧
    ((apply ⟨2, 1⟩ [(.v4 1 1 1 1, ⟨⟨0, 0⟩, 0⟩)] (.v4 1 1 1 1) 0
        "payload").1.result = .error TOO_MANY_REQUESTS ∧
      TOO_MANY_REQUESTS = 429 ∧
      (apply ⟨2, 1⟩ [(.v4 1 1 1 1, ⟨⟨0, 0⟩, 0⟩)] (.v4 1 1 1 1) 0
        "payload").1.downstream_invoked = false ∧
      (apply ⟨2, 1⟩ [(.v4 1 1 1 1, ⟨⟨0, 0⟩, 0⟩)] (.v4 1 1 1 1) 0
        "payload").1.metrics = [⟨"RATE_LIMITED", "/", 429, 0⟩]) :=
  ⟨(c7_gate_outcomes ⟨2, 1⟩ [] (.v4 1 1 1 1) 0 "payload").1
      (by simp [get_limiter, Registry.lookup, check, freshBucket,
            refillTokens_no_elapse]),
   (c7_gate_outcomes ⟨2, 1⟩ [(.v4 1 1 1 1, ⟨⟨0, 0⟩, 0⟩)] (.v4 1 1 1 1) 0
      "payload").2
      (by simp [get_limiter, Registry.lookup, check, refillTokens_no_elapse]
          norm_num)⟩

/-- Claim C3 evidence.  Two tasks race through `get_limiter` for the same
never-before-seen IP under the schedule: task 1's `get_mut` (miss),
task 2's `get_mut` (miss), task 1's `insert`, task 2's `insert`.  Both
tasks construct a bucket (`constructions = 2`); they finish holding
handles to different buckets (ids 0 and 1); the registry retains only
task 2's bucket (the second `insert` replaced task 1's).  Each handle is
a fresh bucket, and a fresh bucket under the test configuration admits a
full burst of 2, so the two racing callers together can be admitted
`2 × max_requests = 4 > 2` times — the code violates the claim. -/
theorem c3_duplicate_bucket_race :
    runRace (.v4 203 0 113 7) .init [false, true, false, true] =
        ⟨[(.v4 203 0 113 7, 1)], .finished 0, .finished 1, 2, 2⟩ ∧
      (TaskPc.finished 0 ≠ TaskPc.finished 1) ∧
      (checkSeq ⟨2, 1⟩ (freshBucket ⟨2, 1⟩ 0) 0 2).1 = [true, true] := by
  refine ⟨by decide, by decide, ?_⟩
  have := checkSeq_drain ⟨2, 1⟩ 0 2 (by decide)
  rw [show freshBucket ⟨2, 1⟩ 0 = ⟨((2 : ℕ) : ℚ), 0⟩ from rfl, this]
  rfl

end RateLimit
